import Mathlib

/-!
# Verification of the floating-window layout engine (`src/shell/layout/floating/mod.rs`)

Shallow embedding of `FloatingLayout` and the parts of its environment it
manipulates.  Machine integers (`i32`) are modelled as `Int`; Rust `/` on `i32`
(truncation towards zero) is modelled by `Int.tdiv`; `i32::max_value()` is the
explicit constant `i32Max`.  Rust panics (`unwrap` / `expect`) are modelled by
`Except String`.  The smithay `Space` (the spec's "spatial index") is an
external capability: it is embedded as a list of outputs with their recorded
space geometry and a bottom-to-top list of mapped elements, with output overlap
derived from the recorded positions, exactly as the spec's data model describes
it.  Render elements are opaque GPU objects; they are embedded as tagged
tokens that record which window and which primitive they came from, so that
emission *order* (the content of the render claims) is fully represented.
-/

namespace Floating

/-- Model of `i32::max_value()`. -/
def i32Max : Int := 2147483647

/-- A logical point (smithay `Point<i32, Logical>`). -/
structure Pnt where
  x : Int
  y : Int
  deriving Repr, DecidableEq

/-- A logical size (smithay `Size<i32, Logical>`). -/
structure Siz where
  w : Int
  h : Int
  deriving Repr, DecidableEq

/-- A logical rectangle (smithay `Rectangle<i32, Logical>`). -/
structure Rct where
  loc : Pnt
  size : Siz
  deriving Repr, DecidableEq

def Pnt.add (a b : Pnt) : Pnt := ⟨a.x + b.x, a.y + b.y⟩

def Pnt.sub (a b : Pnt) : Pnt := ⟨a.x - b.x, a.y - b.y⟩

/-- smithay `Rectangle::overlaps`: the two half-open rectangles intersect. -/
def Rct.overlaps (a b : Rct) : Bool :=
  !(a.loc.x + a.size.w ≤ b.loc.x || a.loc.x ≥ b.loc.x + b.size.w ||
    a.loc.y + a.size.h ≤ b.loc.y || a.loc.y ≥ b.loc.y + b.size.h)

/-- smithay `Rectangle::intersection`: `None` unless the rectangles overlap,
otherwise the rectangle spanned by the max of the corners. -/
def Rct.intersection (a b : Rct) : Option Rct :=
  if a.overlaps b then
    some ⟨⟨max a.loc.x b.loc.x, max a.loc.y b.loc.y⟩,
          ⟨min (a.loc.x + a.size.w) (b.loc.x + b.size.w) - max a.loc.x b.loc.x,
           min (a.loc.y + a.size.h) (b.loc.y + b.size.h) - max a.loc.y b.loc.y⟩⟩
  else none

/-- smithay `Rectangle::merge`: bounding union of two rectangles. -/
def Rct.merge (a b : Rct) : Rct :=
  ⟨⟨min a.loc.x b.loc.x, min a.loc.y b.loc.y⟩,
   ⟨max (a.loc.x + a.size.w) (b.loc.x + b.size.w) - min a.loc.x b.loc.x,
    max (a.loc.y + a.size.h) (b.loc.y + b.size.h) - min a.loc.y b.loc.y⟩⟩

/-- smithay `Rectangle::contains` for a point: `loc ≤ p < loc + size`. -/
def Rct.containsPnt (r : Rct) (p : Pnt) : Bool :=
  r.loc.x ≤ p.x && p.x < r.loc.x + r.size.w &&
  r.loc.y ≤ p.y && p.y < r.loc.y + r.size.h

/-- One rectangle is inside another (coordinatewise). -/
def Rct.insideOf (a b : Rct) : Prop :=
  b.loc.x ≤ a.loc.x ∧ b.loc.y ≤ a.loc.y ∧
  a.loc.x + a.size.w ≤ b.loc.x + b.size.w ∧
  a.loc.y + a.size.h ≤ b.loc.y + b.size.h

/-- Model of the `ResizeEdge` bitflags: which edges are in the mask. -/
structure REdge where
  left : Bool
  right : Bool
  top : Bool
  bottom : Bool
  deriving Repr, DecidableEq

/-- Model of `ResizeDirection`. -/
inductive RDirection where
  | Inwards
  | Outwards
  deriving Repr, DecidableEq

/-- Model of `ResizeData`: the snapshot recorded when a resize starts. -/
structure ResizeData where
  edges : REdge
  initialWindowLocation : Pnt
  initialWindowSize : Siz
  deriving Repr, DecidableEq

/-- The mutable per-window fields of a `CosmicMapped` handle that this engine
reads and writes, together with the static data the handle reports
(`geometry()`, `min_size()`, `max_size()`, its constituent toplevel surfaces,
and its opaque render primitives). -/
structure WindowData where
  /-- Identifies the handle (`Arc` pointer identity). -/
  wid : Nat
  /-- Ids of the toplevel surfaces in this mapped element (a stack has many). -/
  surfaces : List Nat
  /-- `geometry().loc`: the window's own reported content offset. -/
  geoLoc : Pnt
  /-- `geometry().size`. -/
  geoSize : Siz
  /-- `min_size()`. -/
  minSize : Option Siz
  /-- `max_size()`. -/
  maxSize : Option Siz
  /-- `last_geometry` (the restore-geometry slot). -/
  lastGeometry : Option Rct
  /-- `resize_state`. -/
  resizeState : Option ResizeData
  /-- flag set by `set_resizing`. -/
  resizing : Bool
  /-- flag set by `set_tiled`. -/
  tiled : Bool
  /-- last argument of `set_bounds`. -/
  bounds : Option Siz
  /-- last argument of `set_geometry` (the committed geometry). -/
  committed : Option Rct
  /-- `active_window()` is an X11 surface reporting this geometry location. -/
  activeX11Loc : Option Pnt
  /-- Opaque window render primitives of `split_render_elements`. -/
  wElems : List Nat
  /-- Opaque popup render primitives of `split_render_elements`. -/
  pElems : List Nat
  deriving Repr, DecidableEq

/-- Model of `set_geometry`: records the committed rectangle; the size part becomes the
window's geometry size once applied (`configure`). -/
def WindowData.setGeometry (w : WindowData) (r : Rct) : WindowData :=
  { w with committed := some r, geoSize := r.size }

/-- An element registered in the space: the handle plus its recorded location. -/
structure Elem where
  win : WindowData
  loc : Pnt
  deriving Repr, DecidableEq

/-- The space rectangle of an element (`Space::element_geometry`). -/
def Elem.rect (e : Elem) : Rct := ⟨e.loc, e.win.geoSize⟩

/-- An output as the engine sees it: its global geometry (`output.geometry()`),
its non-exclusive zone (`layer_map_for_output(..).non_exclusive_zone()`, in
output-local coordinates) and the geometry the space records for it
(`Space::output_geometry`). -/
structure SpaceOutput where
  oid : Nat
  globalLoc : Pnt
  zone : Rct
  spaceGeo : Rct
  deriving Repr, DecidableEq

/-- The engine state: the spatial index's registered outputs and its
bottom-to-top list of mapped elements. -/
structure FLState where
  outputs : List SpaceOutput
  elements : List Elem
  deriving Repr, DecidableEq

/-- Model of `Iterator::find` over the element list (bottom to top). -/
def findA (p : Elem → Bool) : List Elem → Option Elem
  | [] => none
  | x :: xs => if p x then some x else findA p xs

/-- Index of the first element satisfying `p`. -/
def findIdxA (p : Elem → Bool) : List Elem → Option Nat
  | [] => none
  | x :: xs => if p x then some 0 else (findIdxA p xs).map (· + 1)

/-- Replace the element at index `i` by `f` of it. -/
def updAt (f : Elem → Elem) : List Elem → Nat → List Elem
  | [], _ => []
  | x :: xs, 0 => f x :: xs
  | x :: xs, n + 1 => x :: updAt f xs n

/-- Predicate for `m.windows().any(|(w, _)| &w == window)`: the mapped element contains the
given toplevel surface. -/
def hasSurf (surf : Nat) (e : Elem) : Bool := e.win.surfaces.contains surf

/-- The outputs whose recorded space geometry overlaps the element
(`Space::outputs_for_element`, derived overlap). -/
def elemOutputs (s : FLState) (e : Elem) : List SpaceOutput :=
  s.outputs.filter (fun o => e.rect.overlaps o.spaceGeo)

/-- Model of `Space::output_under`: outputs whose space geometry contains the point. -/
def outputUnder (s : FLState) (p : Pnt) : List SpaceOutput :=
  s.outputs.filter (fun o => o.spaceGeo.containsPnt p)

/-- The output-offset delta used by placement / unmaximize / merge:
`output.geometry().loc - space.output_geometry(output).loc`. -/
def outputOffset (o : SpaceOutput) : Pnt := o.globalLoc.sub o.spaceGeo.loc

/-- Model of `Space::map_element`: (re-)registers the handle at the given location,
raising it to the top of the stacking order. -/
def mapElement (s : FLState) (e : Elem) (location : Pnt) : FLState :=
  { s with elements :=
      s.elements.filter (fun x => x.win.wid ≠ e.win.wid) ++ [{ e with loc := location }] }

/-- One axis of the placement size clamp in `map_internal` (lines 108-135):
when the candidate exceeds two thirds of the zone's extent, try the two-thirds
size, clamp it down to `max_size` when declared (non-zero), then up to
`min_size` when declared, and finally never exceed the zone itself.  Rust
`i32` division truncates, hence `Int.tdiv`. -/
def placementAxis (candidate zoneExt minD maxD : Int) : Int :=
  if candidate > zoneExt.tdiv 3 * 2 then
    let width0 := zoneExt.tdiv 3 * 2
    let width1 := if maxD ≠ 0 then min maxD width0 else width0
    let width2 := if minD ≠ 0 then max minD width1 else width1
    min width2 zoneExt
  else candidate

/-- The full placement size computation of `map_internal`, both axes, with the
`unwrap_or((0, 0))` defaults for the declared min/max applied by the caller. -/
def placementSize (candidate : Siz) (zone : Rct) (minS maxS : Siz) : Siz :=
  ⟨placementAxis candidate.w zone.size.w minS.w maxS.w,
   placementAxis candidate.h zone.size.h minS.h maxS.h⟩

/-- The zone-centred fallback position of `map_internal` (lines 140-146):
the zone centre minus half the (clamped) window size, adjusted by the window's
own content offset. -/
def zoneCentered (o : SpaceOutput) (sz : Siz) (gl : Pnt) : Pnt :=
  ⟨o.zone.loc.x + o.zone.size.w.tdiv 2 - sz.w.tdiv 2 + gl.x,
   o.zone.loc.y + o.zone.size.h.tdiv 2 - sz.h.tdiv 2 + gl.y⟩

/-- Model of `FloatingLayout::map_internal` (lines 87-161): compute the zone, advertise
it as bounds, take the cached restore size if present, clamp the size, pick the
position (explicit, else restore location, else zone-centred), untile, commit
`position + offset` with the clamped size, and register at `position`. -/
def mapInternal (s : FLState) (e : Elem) (o : SpaceOutput) (position : Option Pnt) :
    FLState :=
  let zone := o.zone
  let w1 := { e.win with bounds := some zone.size }
  let lastGeometry := w1.lastGeometry
  let candidate := (lastGeometry.map (·.size)).getD w1.geoSize
  let newSize := placementSize candidate zone
      (w1.minSize.getD ⟨0, 0⟩) (w1.maxSize.getD ⟨0, 0⟩)
  let pos := (position <|> lastGeometry.map (·.loc)).getD
      (zoneCentered o newSize w1.geoLoc)
  let w2 := { w1 with tiled := false }
  let offset := outputOffset o
  let w3 := w2.setGeometry ⟨pos.add offset, newSize⟩
  mapElement s { e with win := w3 } pos

/-- Storing the restore snapshot (lines 191-196): the current space location
with the current geometry size. -/
def storeLast (e : Elem) : Elem :=
  { e with win := { e.win with lastGeometry := some e.rect } }

/-- Model of `FloatingLayout::maximize_request` (lines 185-198): find the mapped element
containing the surface and store its current space location and geometry size
into the restore slot. -/
def maximizeRequest (s : FLState) (surf : Nat) : FLState :=
  match findIdxA (hasSurf surf) s.elements with
  | none => s
  | some i => ⟨s.outputs, updAt storeLast s.elements i⟩

/-- Model of `FloatingLayout::unmaximize_request` (lines 200-231): find the mapped
element, read the restore slot (`expect` panics when absent), find the output
under the stored location falling back to the first output (the `unwrap_or`
argument is evaluated eagerly in Rust, so an empty output list panics
unconditionally), commit the stored geometry translated by the output offset,
re-map at the stored location, and return the stored size. -/
def unmaximizeRequest (s : FLState) (surf : Nat) :
    Except String (Option Siz × FLState) :=
  match findA (hasSurf surf) s.elements with
  | none => .ok (none, s)
  | some e =>
    match e.win.lastGeometry with
    | none => .error "No previous size?"
    | some g =>
      match s.outputs.head? with
      | none => .error "outputs().next().unwrap() on None"
      | some fallbackOut =>
        let output := (outputUnder s g.loc).headD fallbackOut
        let offset := outputOffset output
        let e2 := { e with win := e.win.setGeometry ⟨g.loc.add offset, g.size⟩ }
        .ok (some g.size, mapElement s e2 g.loc)

/-- The edge/direction adjustment of the proposed rectangle in
`FloatingLayout::resize` (lines 279-306): widen/narrow per edge and shift the
origin when the left/top edge is active. -/
def adjustGeo (geo : Rct) (direction : RDirection) (edge : REdge) (amount : Int) :
    Rct :=
  let g1 :=
    if edge.right || edge.left then
      let w := if direction = RDirection.Inwards then geo.size.w - amount
               else geo.size.w + amount
      let x := if edge.left then
                 (if direction = RDirection.Inwards then geo.loc.x + amount
                  else geo.loc.x - amount)
               else geo.loc.x
      ⟨⟨x, geo.loc.y⟩, ⟨w, geo.size.h⟩⟩
    else geo
  if edge.bottom || edge.top then
    let h := if direction = RDirection.Inwards then g1.size.h - amount
             else g1.size.h + amount
    let y := if edge.top then
               (if direction = RDirection.Inwards then g1.loc.y + amount
                else g1.loc.y - amount)
             else g1.loc.y
    ⟨⟨g1.loc.x, y⟩, ⟨g1.size.w, h⟩⟩
  else g1

/-- The bounding-box fold of `resize` (lines 308-319): merge the space
geometries of all outputs overlapping the proposed rectangle. -/
def resizeBBox (s : FLState) (geo : Rct) : Option Rct :=
  ((s.outputs.map (·.spaceGeo)).filter (fun og => og.overlaps geo)).foldl
    (fun res og =>
      match res with
      | none => some og
      | some other => some (other.merge og))
    none

/-- One axis of the resize clamp (lines 327-328): `lo.max(v).min(hi)`. -/
def resizeClampAxis (v lo hi : Int) : Int := min (max lo v) hi

/-- The per-window effect of a successful discrete resize (lines 331-345):
record the resize state snapshot, set the resizing flag and commit the new
geometry. -/
def resizeApply (edge : REdge) (originalGeo newGeo : Rct) (x : Elem) : Elem :=
  { x with win :=
      ({ x.win with
          resizeState := some ⟨edge, originalGeo.loc, originalGeo.size⟩,
          resizing := true }).setGeometry newGeo }

/-- Model of `FloatingLayout::resize` (lines 256-348).  `ft` is the result of
`focused.toplevel()`.  Panics (the final `unwrap`) become `.error`. -/
def resize (s : FLState) (ft : Option Nat) (direction : RDirection) (edge : REdge)
    (amount : Int) : Except String (Bool × FLState) :=
  match ft with
  | none => .ok (false, s)
  | some t =>
    match findIdxA (hasSurf t) s.elements with
    | none => .ok (false, s)
    | some i =>
      match s.elements.get? i with
      | none => .ok (false, s)
      | some e =>
        let originalGeo := e.rect
        let geo := adjustGeo originalGeo direction edge amount
        match resizeBBox s geo with
        | none => .ok (true, s)
        | some bb =>
          let minW := (e.win.minSize.map (·.w)).getD 360
          let minH := (e.win.minSize.map (·.h)).getD 240
          let maxW := (e.win.maxSize.map (·.w)).getD i32Max
          let maxH := (e.win.maxSize.map (·.h)).getD i32Max
          let geo2 : Rct := ⟨geo.loc,
            ⟨resizeClampAxis geo.size.w minW maxW,
             resizeClampAxis geo.size.h minH maxH⟩⟩
          match geo2.intersection bb with
          | none => .error "geo.intersection(bounding_box).unwrap() on None"
          | some geo3 =>
            let commitLoc := e.win.activeX11Loc.getD ⟨0, 0⟩
            let newElems :=
              updAt (resizeApply edge originalGeo ⟨commitLoc, geo3.size⟩) s.elements i
            .ok (true, { s with elements := newElems })

/-- Clearing the restore slot (`*element.last_geometry.lock().unwrap() = None`). -/
def clearLast (e : Elem) : Elem :=
  { e with win := { e.win with lastGeometry := none } }

/-- One iteration of the repair loop in `refresh` (lines 363-375): clear the
orphan's restore slot and re-run `map_internal` on the first output with no
explicit position. -/
def refreshStep (o : SpaceOutput) (s : FLState) (w : Nat) : FLState :=
  match findA (fun e => e.win.wid = w) s.elements with
  | none => s
  | some e => mapInternal s (clearLast e) o none

/-- Model of `FloatingLayout::refresh` (lines 358-376): materialise the list of elements
overlapping zero outputs, then repair each.  `outputs().next().unwrap()` inside
the loop panics when the loop body runs with no registered output.  The
spatial index's own `Space::refresh` only re-derives overlap data, which this
model derives on the fly. -/
def refresh (s : FLState) : Except String FLState :=
  let orphans := (s.elements.filter (fun e => (elemOutputs s e).isEmpty)).map (·.win.wid)
  if orphans.isEmpty then .ok s
  else
    match s.outputs.head? with
    | none => .error "outputs().next().unwrap() on None"
    | some o => .ok (orphans.foldl (refreshStep o) s)

/-- An emitted render element, tagged with the window it came from.  Render
elements are opaque GPU objects; only their provenance and emission order
matter to the engine. -/
inductive RenderItem where
  | resizeOverlay (wid : Nat)
  | focusOverlay (wid : Nat)
  | content (wid : Nat) (prim : Nat)
  | popup (wid : Nat) (prim : Nat)
  deriving Repr, DecidableEq

/-- Model of `Space::elements_for_output`: the mapped elements overlapping the output,
bottom to top. -/
def elementsForOutput (s : FLState) (o : SpaceOutput) : List Elem :=
  s.elements.filter (fun e => e.rect.overlaps o.spaceGeo)

/-- The window-element pushes of one loop iteration of `render_output`
(lines 477-529): when the element is the focus target, first the resize-mode
overlay elements (when an indicator descriptor was passed), then the focus-ring
element (when the thickness is positive), then the element's own content
elements. -/
def renderBlock (focused : Option Nat) (hasRI : Bool) (thickness : Nat)
    (e : Elem) : List RenderItem :=
  (if focused = some e.win.wid then
     (if hasRI then [RenderItem.resizeOverlay e.win.wid] else []) ++
     (if thickness > 0 then [RenderItem.focusOverlay e.win.wid] else [])
   else []) ++ e.win.wElems.map (RenderItem.content e.win.wid)

/-- Model of `FloatingLayout::render_output` (lines 446-532): iterate the elements for
the output in reverse order, appending each element's window block and popup
elements to the two accumulators.  The geometric transforms applied to each
element (output-relative location, physical rounding) do not change the
emission order and the elements themselves are opaque, so the model keeps only
the tagged tokens. -/
def renderOutput (s : FLState) (o : SpaceOutput) (focused : Option Nat)
    (hasRI : Bool) (thickness : Nat) : List RenderItem × List RenderItem :=
  (elementsForOutput s o).reverse.foldl
    (fun acc e =>
      (acc.1 ++ renderBlock focused hasRI thickness e,
       acc.2 ++ e.win.pElems.map (RenderItem.popup e.win.wid)))
    ([], [])

/-! ## General lemmas about the geometry and list helpers -/

theorem Rct.overlaps_iff (a b : Rct) :
    a.overlaps b = true ↔
      (b.loc.x < a.loc.x + a.size.w ∧ a.loc.x < b.loc.x + b.size.w ∧
       b.loc.y < a.loc.y + a.size.h ∧ a.loc.y < b.loc.y + b.size.h) := by
  simp only [Rct.overlaps, Bool.not_eq_true', Bool.or_eq_false_iff,
    decide_eq_false_iff_not, not_le, not_lt]
  omega

theorem Rct.merge_inside_left (a b : Rct) : a.insideOf (a.merge b) := by
  simp only [Rct.insideOf, Rct.merge]
  refine ⟨?_, ?_, ?_, ?_⟩ <;> simp <;> omega

theorem Rct.overlaps_of_inside (g a b : Rct) (hin : a.insideOf b)
    (h : g.overlaps a = true) : g.overlaps b = true := by
  rw [Rct.overlaps_iff] at h ⊢
  obtain ⟨h1, h2, h3, h4⟩ := hin
  omega

theorem Rct.overlaps_of_grow (g g2 b : Rct) (hloc : g2.loc = g.loc)
    (hw : g.size.w ≤ g2.size.w) (hh : g.size.h ≤ g2.size.h)
    (h : g.overlaps b = true) : g2.overlaps b = true := by
  rw [Rct.overlaps_iff] at h ⊢
  rw [hloc]
  omega

theorem Rct.overlaps_comm (a b : Rct) : a.overlaps b = b.overlaps a := by
  by_cases h : a.overlaps b = true
  · rw [h, Eq.comm, Rct.overlaps_iff]
    rw [Rct.overlaps_iff] at h
    omega
  · rw [Bool.not_eq_true] at h
    rw [h, Eq.comm, Bool.eq_false_iff, Ne, Rct.overlaps_iff]
    rw [Bool.eq_false_iff, Ne, Rct.overlaps_iff] at h
    omega

theorem Rct.intersection_isSome (a b : Rct) (h : a.overlaps b = true) :
    ∃ r, a.intersection b = some r := by
  rw [Rct.intersection, if_pos h]
  exact ⟨_, rfl⟩

theorem Rct.intersection_inside_right (a b r : Rct)
    (h : a.intersection b = some r) : r.insideOf b := by
  rw [Rct.intersection] at h
  split at h
  · cases h
    simp only [Rct.insideOf]
    refine ⟨?_, ?_, ?_, ?_⟩ <;> simp <;> omega
  · cases h

theorem updAt_get? (f : Elem → Elem) (l : List Elem) (i : Nat) :
    (updAt f l i).get? i = (l.get? i).map f := by
  induction l generalizing i with
  | nil => cases i <;> rfl
  | cons x xs ih => cases i with
    | zero => rfl
    | succ n => simpa [updAt] using ih n

theorem getLast?_append_single (l : List Elem) (x : Elem) :
    (l ++ [x]).getLast? = some x := by
  induction l with
  | nil => rfl
  | cons y ys ih => rw [List.cons_append, List.getLast?_cons, ih]; rfl

theorem findA_eq_some (p : Elem → Bool) (l : List Elem) (e : Elem)
    (h : findA p l = some e) : ∃ i, findIdxA p l = some i ∧ l.get? i = some e := by
  induction l with
  | nil => cases h
  | cons x xs ih =>
    simp only [findA] at h
    by_cases hx : p x
    · rw [if_pos hx] at h
      refine ⟨0, ?_, ?_⟩
      · simp [findIdxA, hx]
      · simpa using h
    · rw [if_neg hx] at h
      obtain ⟨i, hi, hg⟩ := ih h
      refine ⟨i + 1, ?_, by simpa using hg⟩
      simp [findIdxA, hx, hi]

theorem findA_updAt (p : Elem → Bool) (f : Elem → Elem) (l : List Elem)
    (i : Nat) (e : Elem) (hp : ∀ x, p (f x) = p x)
    (hi : findIdxA p l = some i) (he : l.get? i = some e) :
    findA p (updAt f l i) = some (f e) := by
  induction l generalizing i with
  | nil => cases hi
  | cons x xs ih =>
    simp only [findIdxA] at hi
    by_cases hx : p x
    · rw [if_pos hx] at hi
      have hi0 : i = 0 := by simpa using hi.symm
      subst hi0
      have hxe : e = x := by simpa using he.symm
      subst hxe
      simp only [updAt, findA]
      rw [if_pos ((hp e).trans hx)]
    · rw [if_neg hx] at hi
      cases i with
      | zero => simp at hi
      | succ n =>
        simp only [Option.map_eq_some'] at hi
        obtain ⟨m, hm, hmn⟩ := hi
        have hn : m = n := by omega
        subst hn
        simp only [updAt, findA]
        rw [if_neg hx]
        exact ih _ hm (by simpa using he)

theorem findA_of_all_neg (p : Elem → Bool) (l : List Elem)
    (h : findA p l = none) : ∀ x ∈ l, p x = false := by
  induction l with
  | nil => intro x hx; cases hx
  | cons y ys ih =>
    simp only [findA] at h
    intro x hx
    by_cases hy : p y
    · rw [if_pos hy] at h; cases h
    · rw [if_neg hy] at h
      rcases List.mem_cons.mp hx with rfl | hmem
      · exact Bool.eq_false_iff.mpr hy
      · exact ih h x hmem

/-! ## C3: clamp order on conflicting min/max constraints -/

/-- C3 counterexample.  With the same conflicting declared constraints
(min 500×500, max 400×400), placement commits width 500 (its clamps run
max-first, min-last, so the minimum prevails) while discrete resize commits
width 400 (its clamps run min-first, max-last, so the maximum prevails): the
clamp order is not `minimum before maximum` in both operations and the
outcomes differ. -/
theorem C3_clamp_order_counterexample :
    placementAxis 2000 1920 500 400 = 500 ∧
    resizeClampAxis 1000 500 400 = 400 ∧
    (500 : Int) ≠ 400 := by
  refine ⟨by decide, by decide, by decide⟩

/-- C3 amended: with conflicting declared constraints (`0 < max < min`),
neither operation errors, but the clamp applied last wins and the orders
differ: `map_internal` applies the max clamp first and the min clamp last, so
its triggered placement axis yields `min(min, zone)`; `resize` applies the min
clamp first and the max clamp last, so its axis yields exactly `max`. -/
theorem C3_clamp_order_amended (minD maxD zoneExt candidate v : Int)
    (hmax : 0 < maxD) (hconflict : maxD < minD)
    (htrig : candidate > zoneExt.tdiv 3 * 2) :
    placementAxis candidate zoneExt minD maxD = min minD zoneExt ∧
    resizeClampAxis v minD maxD = maxD := by
  constructor
  · simp only [placementAxis]
    split_ifs <;> omega
  · simp only [resizeClampAxis]
    omega

/-- C3 amended witness at the counterexample constraints. -/
theorem C3_clamp_order_witness :
    placementAxis 2000 1920 500 400 = min 500 1920 ∧
    resizeClampAxis 1000 500 400 = 400 :=
  C3_clamp_order_amended 500 400 1920 2000 1000 (by decide) (by decide) (by decide)

/-! ## Concrete fixtures for witnesses and counterexamples -/

/-- A plain window handle with no declared constraints. -/
def mkWin (wid surf : Nat) (sz : Siz) : WindowData :=
  { wid := wid, surfaces := [surf], geoLoc := ⟨0, 0⟩, geoSize := sz,
    minSize := none, maxSize := none, lastGeometry := none, resizeState := none,
    resizing := false, tiled := false, bounds := none, committed := none,
    activeX11Loc := none, wElems := [wid * 10], pElems := [] }

/-- A 1920×1080 output at the space origin with a 1920×1040 zone. -/
def outStd : SpaceOutput :=
  { oid := 0, globalLoc := ⟨0, 0⟩, zone := ⟨⟨0, 0⟩, ⟨1920, 1040⟩⟩,
    spaceGeo := ⟨⟨0, 0⟩, ⟨1920, 1080⟩⟩ }

/-! ## C6: left/top edge resize anchoring -/

/-- C6: in the proposed rectangle computed by the discrete-resize edge
adjustment, whenever the left edge is in the mask the x-origin moves by the
amount (towards the right for inwards, towards the left for outwards) while
the right edge `x + w` keeps its pre-resize value; symmetrically for the top
edge, the y-origin and the bottom edge. -/
theorem C6_left_edge_anchor (geo : Rct) (dir : RDirection) (edge : REdge)
    (amount : Int) :
    (edge.left = true →
      (adjustGeo geo dir edge amount).loc.x + (adjustGeo geo dir edge amount).size.w
          = geo.loc.x + geo.size.w ∧
      (adjustGeo geo dir edge amount).loc.x
          = geo.loc.x + (if dir = RDirection.Inwards then amount else -amount)) ∧
    (edge.top = true →
      (adjustGeo geo dir edge amount).loc.y + (adjustGeo geo dir edge amount).size.h
          = geo.loc.y + geo.size.h ∧
      (adjustGeo geo dir edge amount).loc.y
          = geo.loc.y + (if dir = RDirection.Inwards then amount else -amount)) := by
  obtain ⟨l, r, t, b⟩ := edge
  cases dir <;> cases l <;> cases r <;> cases t <;> cases b <;>
    simp [adjustGeo] <;> omega

/-- C6 witness: growing a 400×300 window at (100, 50) outwards by 25 with the
left edge in the mask moves the x-origin to 75. -/
theorem C6_left_edge_anchor_witness :
    (adjustGeo ⟨⟨100, 50⟩, ⟨400, 300⟩⟩ RDirection.Outwards ⟨true, false, false, false⟩ 25).loc.x
      = 100 + (if RDirection.Outwards = RDirection.Inwards then 25 else -(25 : Int)) :=
  ((C6_left_edge_anchor ⟨⟨100, 50⟩, ⟨400, 300⟩⟩ RDirection.Outwards
      ⟨true, false, false, false⟩ 25).1 (by decide)).2

/-! ## C2: size bounds after placement and resize -/

/-- A window whose natural size 100×100 is below its declared minimum 200×200. -/
def cexMinWin : WindowData :=
  { mkWin 1 1 ⟨100, 100⟩ with minSize := some ⟨200, 200⟩ }

/-- C2 counterexample: placing a window with natural size 100×100 and declared
minimum 200×200 commits size 100×100 — below the declared minimum — because
`map_internal` only clamps an axis whose candidate exceeds two thirds of the
zone.  The committed size therefore does not always lie within the declared
min/max bounds after placement. -/
theorem C2_size_bounds_counterexample :
    (mapInternal ⟨[outStd], []⟩ ⟨cexMinWin, ⟨0, 0⟩⟩ outStd none).elements.map
        (fun e => (e.win.geoSize, e.win.committed, e.win.minSize)) =
      [(⟨100, 100⟩, some ⟨⟨910, 470⟩, ⟨100, 100⟩⟩, some ⟨200, 200⟩)] ∧
    (100 : Int) < 200 := by
  constructor
  · rfl
  · decide

/-- Placement axis clamp never exceeds a nonnegative zone extent. -/
theorem placementAxis_le (c z mi ma : Int) (hz : 0 ≤ z) :
    placementAxis c z mi ma ≤ z := by
  have ht : z.tdiv 3 = z / 3 := Int.tdiv_eq_ediv hz (by norm_num)
  simp only [placementAxis, ht]
  split_ifs <;> omega

/-- C2 amended: (1) the geometry committed by placement never exceeds the
zone extent on either axis (but placement does not otherwise enforce the
declared min/max, see the counterexample); (2) the resize clamp produces a
value within `[lo, hi]` whenever `lo ≤ hi` (`lo` defaulting to the 360/240
floor and `hi` to unbounded); (3) on the successful resize path the committed
geometry is the clamped rectangle intersected with the bounding box of
overlapping outputs, hence lies inside that union. -/
theorem C2_size_bounds_amended :
    (∀ (s : FLState) (e : Elem) (o : SpaceOutput) (position : Option Pnt),
       0 ≤ o.zone.size.w → 0 ≤ o.zone.size.h →
       ∃ e' r, (mapInternal s e o position).elements.getLast? = some e' ∧
         e'.win.committed = some r ∧
         r.size.w ≤ o.zone.size.w ∧ r.size.h ≤ o.zone.size.h) ∧
    (∀ v lo hi : Int, lo ≤ hi →
       lo ≤ resizeClampAxis v lo hi ∧ resizeClampAxis v lo hi ≤ hi) ∧
    (∀ (s : FLState) (t i : Nat) (e : Elem) (dir : RDirection) (edge : REdge)
       (amt : Int) (bb r : Rct),
       findIdxA (hasSurf t) s.elements = some i →
       s.elements.get? i = some e →
       resizeBBox s (adjustGeo e.rect dir edge amt) = some bb →
       Rct.intersection
         ⟨(adjustGeo e.rect dir edge amt).loc,
          ⟨resizeClampAxis (adjustGeo e.rect dir edge amt).size.w
             ((e.win.minSize.map (·.w)).getD 360) ((e.win.maxSize.map (·.w)).getD i32Max),
           resizeClampAxis (adjustGeo e.rect dir edge amt).size.h
             ((e.win.minSize.map (·.h)).getD 240) ((e.win.maxSize.map (·.h)).getD i32Max)⟩⟩
         bb = some r →
       ∃ s', resize s (some t) dir edge amt = .ok (true, s') ∧
         (s'.elements.get? i).map (fun e' => e'.win.committed) =
           some (some ⟨e.win.activeX11Loc.getD ⟨0, 0⟩, r.size⟩) ∧
         r.insideOf bb) := by
  refine ⟨?_, ?_, ?_⟩
  · intro s e o position h0w h0h
    simp only [mapInternal, mapElement]
    rw [getLast?_append_single]
    refine ⟨_, _, rfl, rfl, ?_, ?_⟩ <;> simp only [placementSize] <;>
      apply placementAxis_le <;> assumption
  · intro v lo hi hle
    simp only [resizeClampAxis]
    omega
  · intro s t i e dir edge amt bb r hfi hge hbb hint
    refine ⟨⟨s.outputs,
        updAt (resizeApply edge e.rect ⟨e.win.activeX11Loc.getD ⟨0, 0⟩, r.size⟩)
          s.elements i⟩, ?_, ?_, ?_⟩
    · simp only [resize, hfi, hge, hbb, hint]
    · rw [updAt_get?, hge]
      rfl
    · exact Rct.intersection_inside_right _ _ _ hint

/-- C2 amended witness, exercising all three conjuncts on the standard
output, a plain 500×400 window and a right-edge grow by 10. -/
theorem C2_size_bounds_witness :
    (∃ e' r, (mapInternal ⟨[outStd], []⟩ ⟨mkWin 1 1 ⟨100, 100⟩, ⟨0, 0⟩⟩ outStd
          none).elements.getLast? = some e' ∧
        e'.win.committed = some r ∧ r.size.w ≤ 1920 ∧ r.size.h ≤ 1040) ∧
    ((360 : Int) ≤ resizeClampAxis 510 360 i32Max ∧
      resizeClampAxis 510 360 i32Max ≤ i32Max) := by
  constructor
  · simpa using C2_size_bounds_amended.1 ⟨[outStd], []⟩ ⟨mkWin 1 1 ⟨100, 100⟩, ⟨0, 0⟩⟩
      outStd none (by decide) (by decide)
  · exact C2_size_bounds_amended.2.1 510 360 i32Max (by decide)

/-! ## C5: resize on an unresolvable or unregistered focus target -/

/-- C5: when the focus target resolves to no toplevel surface, or the surface
is not registered in this engine's space, `resize` reports not-handled
(`false`) and returns the state unchanged: no geometry commit, no resize-state
write, no resizing flag. -/
theorem C5_resize_not_found (s : FLState) (ft : Option Nat) (dir : RDirection)
    (edge : REdge) (amount : Int)
    (h : ft = none ∨ ∃ t, ft = some t ∧ findIdxA (hasSurf t) s.elements = none) :
    resize s ft dir edge amount = .ok (false, s) := by
  rcases h with h | ⟨t, hft, hfi⟩
  · subst h
    simp only [resize]
  · subst hft
    simp only [resize, hfi]

/-- C5 witness: resizing with an unregistered surface in an empty engine. -/
theorem C5_resize_not_found_witness :
    resize ⟨[outStd], []⟩ (some 9) RDirection.Outwards ⟨false, true, false, false⟩ 10
      = .ok (false, ⟨[outStd], []⟩) :=
  C5_resize_not_found ⟨[outStd], []⟩ (some 9) RDirection.Outwards
    ⟨false, true, false, false⟩ 10 (Or.inr ⟨9, rfl, rfl⟩)

/-! ## C9: unmaximize without a restore snapshot panics -/

/-- C9: calling `unmaximize_request` on a window registered in this engine
whose restore slot is empty hits the `expect("No previous size?")` panic; with
a snapshot present (and at least one registered output) the call succeeds, so
under the discipline that `maximize_request` ran first the panic branch is
unreachable. -/
theorem C9_unmaximize_no_snapshot_panics (s : FLState) (surf : Nat) (e : Elem)
    (hfind : findA (hasSurf surf) s.elements = some e) :
    (e.win.lastGeometry = none →
      unmaximizeRequest s surf = .error "No previous size?") ∧
    (∀ g f, e.win.lastGeometry = some g → s.outputs.head? = some f →
      ∃ out, unmaximizeRequest s surf = .ok out) := by
  constructor
  · intro hnone
    simp only [unmaximizeRequest, hfind, hnone]
  · intro g f hsome hout
    simp only [unmaximizeRequest, hfind, hsome, hout]
    exact ⟨_, rfl⟩

/-- A 400×300 window at (100, 50) on the standard output, no snapshot. -/
def plainS1 : FLState :=
  ⟨[outStd], [⟨mkWin 1 1 ⟨400, 300⟩, ⟨100, 50⟩⟩]⟩

/-- C9 witness: unmaximizing the snapshot-less window panics. -/
theorem C9_unmaximize_no_snapshot_witness :
    unmaximizeRequest plainS1 1 = .error "No previous size?" :=
  (C9_unmaximize_no_snapshot_panics plainS1 1 ⟨mkWin 1 1 ⟨400, 300⟩, ⟨100, 50⟩⟩ rfl).1 rfl

/-! ## C4: resize whose proposed rectangle overlaps no output -/

/-- A window far away from the standard output. -/
def farS4 : FLState :=
  ⟨[outStd], [⟨mkWin 4 4 ⟨100, 100⟩, ⟨5000, 5000⟩⟩]⟩

/-- C4 counterexample: when the proposed rectangle overlaps no output,
`resize` returns `true` (handled) but performs no further processing at all —
the post-state still has no committed geometry, no resize state and a clear
resizing flag, so the proposed geometry is *not* accepted as an unclamped
geometry update; it is discarded. -/
theorem C4_no_overlap_resize_counterexample :
    resize farS4 (some 4) RDirection.Outwards ⟨false, true, false, false⟩ 10
        = .ok (true, farS4) ∧
    farS4.elements.map (fun e => (e.win.committed, e.win.resizing, e.win.resizeState))
        = [(none, false, none)] := by
  exact ⟨rfl, rfl⟩

/-- C4 amended: with a registered focus surface whose adjusted rectangle
overlaps no output geometry, `resize` reports handled (`true`) and leaves the
engine and window state entirely unchanged (the proposed geometry is
discarded, not committed). -/
theorem C4_no_overlap_resize_amended (s : FLState) (t i : Nat) (e : Elem)
    (dir : RDirection) (edge : REdge) (amt : Int)
    (hfi : findIdxA (hasSurf t) s.elements = some i)
    (hge : s.elements.get? i = some e)
    (hbb : resizeBBox s (adjustGeo e.rect dir edge amt) = none) :
    resize s (some t) dir edge amt = .ok (true, s) := by
  simp only [resize, hfi, hge, hbb]

/-- C4 amended witness at the far-away window fixture. -/
theorem C4_no_overlap_resize_witness :
    resize farS4 (some 4) RDirection.Outwards ⟨false, true, false, false⟩ 10
      = .ok (true, farS4) :=
  C4_no_overlap_resize_amended farS4 4 0 ⟨mkWin 4 4 ⟨100, 100⟩, ⟨5000, 5000⟩⟩
    RDirection.Outwards ⟨false, true, false, false⟩ 10 rfl rfl (by decide)

/-! ## C1: maximize / unmaximize restore round trip -/

/-- Characterisation of a successful `unmaximize_request`: with the element
found, a snapshot `g` present and at least one output registered, it returns
the stored size and re-maps the element at the stored location, committing the
stored geometry translated by the output-offset delta of the output under the
stored location (falling back to the first output). -/
theorem unmaximize_spec (s : FLState) (surf : Nat) (e : Elem) (g : Rct)
    (f : SpaceOutput) (hfind : findA (hasSurf surf) s.elements = some e)
    (hlast : e.win.lastGeometry = some g) (hout : s.outputs.head? = some f) :
    unmaximizeRequest s surf = .ok (some g.size,
      mapElement s
        ⟨e.win.setGeometry
            ⟨g.loc.add (outputOffset ((outputUnder s g.loc).headD f)), g.size⟩,
         e.loc⟩
        g.loc) := by
  simp only [unmaximizeRequest, hfind, hlast, hout]

/-- C1: for a registered window (with at least one registered output),
`maximize_request` followed by `unmaximize_request` returns exactly the
geometry size recorded at maximize time, re-maps the window at the recorded
space location, and commits that location transformed only by the
output-offset delta. -/
theorem C1_restore_round_trip (s : FLState) (surf : Nat) (e : Elem)
    (f : SpaceOutput) (hfind : findA (hasSurf surf) s.elements = some e)
    (hout : s.outputs.head? = some f) :
    ∃ s', unmaximizeRequest (maximizeRequest s surf) surf
        = .ok (some e.win.geoSize, s') ∧
      ∃ e', s'.elements.getLast? = some e' ∧ e'.win.wid = e.win.wid ∧
        e'.loc = e.loc ∧
        e'.win.committed = some
          ⟨e.loc.add (outputOffset ((outputUnder s e.loc).headD f)), e.win.geoSize⟩ := by
  obtain ⟨i, hi, hg⟩ := findA_eq_some _ _ _ hfind
  have hmax : maximizeRequest s surf = ⟨s.outputs, updAt storeLast s.elements i⟩ := by
    simp only [maximizeRequest, hi]
  have hfind2 : findA (hasSurf surf) (updAt storeLast s.elements i)
      = some (storeLast e) :=
    findA_updAt _ storeLast _ i e (fun x => rfl) hi hg
  have hspec := unmaximize_spec ⟨s.outputs, updAt storeLast s.elements i⟩ surf
    (storeLast e) e.rect f hfind2 rfl hout
  rw [hmax]
  refine ⟨_, hspec, ?_⟩
  simp only [mapElement]
  rw [getLast?_append_single]
  exact ⟨_, rfl, rfl, rfl, rfl⟩

/-- C1 witness: the 400×300 window registered at (100, 50) round-trips to
size 400×300, location (100, 50). -/
theorem C1_restore_round_trip_witness :
    ∃ s', unmaximizeRequest (maximizeRequest plainS1 1) 1
        = .ok (some ⟨400, 300⟩, s') ∧
      ∃ e', s'.elements.getLast? = some e' ∧ e'.win.wid = 1 ∧
        e'.loc = ⟨100, 50⟩ ∧
        e'.win.committed = some
          ⟨Pnt.add ⟨100, 50⟩ (outputOffset ((outputUnder plainS1 ⟨100, 50⟩).headD outStd)),
           ⟨400, 300⟩⟩ :=
  C1_restore_round_trip plainS1 1 ⟨mkWin 1 1 ⟨400, 300⟩, ⟨100, 50⟩⟩ outStd rfl rfl

/-! ## C7: render emission order -/

/-- Windows 1, 2, 3 mapped bottom-to-top on the standard output. -/
def renderS7 : FLState :=
  ⟨[outStd],
   [⟨mkWin 1 1 ⟨100, 100⟩, ⟨0, 0⟩⟩,
    ⟨mkWin 2 2 ⟨100, 100⟩, ⟨50, 50⟩⟩,
    ⟨mkWin 3 3 ⟨100, 100⟩, ⟨100, 100⟩⟩]⟩

/-- C7 counterexample: with windows mapped in order [1, 2, 3] (window 3 most
recently raised), the emitted window-element sequence starts with window 3's
content and ends with window 1's — the content blocks appear in the sequence
in order [3, 2, 1], not [1, 2, 3].  (The focused window 2's overlays do
precede its own content.) -/
theorem C7_render_order_counterexample :
    (renderOutput renderS7 outStd (some 2) true 4).1 =
      [RenderItem.content 3 30, RenderItem.resizeOverlay 2,
       RenderItem.focusOverlay 2, RenderItem.content 2 20,
       RenderItem.content 1 10] ∧
    renderS7.elements.map (fun e => e.win.wid) = [1, 2, 3] ∧
    (RenderItem.content 3 30) ≠ (RenderItem.content 1 10) := by
  exact ⟨rfl, rfl, by decide⟩

/-- C7 amended: with `elements_for_output` reporting mapped order [a, b, c]
(c most recently raised), the emitted window-element sequence is the blocks in
reverse mapped order, c's block first and a's block last — under the
renderer's convention that earlier elements are topmost this paints a first
and c last — and when b is the focused window its overlay elements (resize
overlay, then focus ring) immediately precede its own content elements inside
its block. -/
theorem C7_render_order_amended (s : FLState) (o : SpaceOutput)
    (focused : Option Nat) (hasRI : Bool) (th : Nat) (a b c : Elem)
    (h : elementsForOutput s o = [a, b, c]) :
    (renderOutput s o focused hasRI th).1 =
      renderBlock focused hasRI th c ++ renderBlock focused hasRI th b ++
        renderBlock focused hasRI th a ∧
    (focused = some b.win.wid →
      ∃ pre post, (renderOutput s o focused hasRI th).1 =
        pre ++ ((if hasRI then [RenderItem.resizeOverlay b.win.wid] else []) ++
          (if th > 0 then [RenderItem.focusOverlay b.win.wid] else []) ++
          b.win.wElems.map (RenderItem.content b.win.wid)) ++ post) := by
  have hmain : (renderOutput s o focused hasRI th).1 =
      renderBlock focused hasRI th c ++ renderBlock focused hasRI th b ++
        renderBlock focused hasRI th a := by
    simp [renderOutput, h]
  refine ⟨hmain, ?_⟩
  intro hf
  refine ⟨renderBlock focused hasRI th c, renderBlock focused hasRI th a, ?_⟩
  rw [hmain]
  simp [renderBlock, hf]

/-- C7 amended witness at the three-window fixture with window 2 focused. -/
theorem C7_render_order_witness :
    (renderOutput renderS7 outStd (some 2) true 4).1 =
      renderBlock (some 2) true 4 ⟨mkWin 3 3 ⟨100, 100⟩, ⟨100, 100⟩⟩ ++
        renderBlock (some 2) true 4 ⟨mkWin 2 2 ⟨100, 100⟩, ⟨50, 50⟩⟩ ++
        renderBlock (some 2) true 4 ⟨mkWin 1 1 ⟨100, 100⟩, ⟨0, 0⟩⟩ :=
  (C7_render_order_amended renderS7 outStd (some 2) true 4
    ⟨mkWin 1 1 ⟨100, 100⟩, ⟨0, 0⟩⟩ ⟨mkWin 2 2 ⟨100, 100⟩, ⟨50, 50⟩⟩
    ⟨mkWin 3 3 ⟨100, 100⟩, ⟨100, 100⟩⟩ rfl).1

/-! ## C10: the intersection unwrap in resize -/

/-- A window hanging 1000 px left of the output with a small declared max. -/
def offscreenS10 : FLState :=
  ⟨[outStd],
   [⟨{ mkWin 1 1 ⟨1100, 200⟩ with maxSize := some ⟨500, 500⟩ }, ⟨-1000, 100⟩⟩]⟩

/-- C10 counterexample: the adjusted rectangle (-1000, 100) 1110×200 overlaps
the output, so a bounding box exists, but the max-size clamp shrinks the width
to 500, pulling the rectangle fully left of the output; the intersection is
`None` and the `unwrap` panics.  The step is not panic-free. -/
theorem C10_intersection_unwrap_counterexample :
    resize offscreenS10 (some 1) RDirection.Outwards ⟨false, true, false, false⟩ 10
      = .error "geo.intersection(bounding_box).unwrap() on None" := rfl

/-- The proposed rectangle of a resize overlaps the bounding box computed from
it (the box is the merge of output geometries each overlapping the
rectangle). -/
theorem resizeBBox_overlaps (s : FLState) (geo bb : Rct)
    (h : resizeBBox s geo = some bb) : geo.overlaps bb = true := by
  have haux : ∀ (l : List Rct) (acc : Option Rct),
      (∀ r ∈ l, geo.overlaps r = true) →
      (∀ a, acc = some a → geo.overlaps a = true) →
      ∀ b, l.foldl
          (fun res og =>
            match res with
            | none => some og
            | some other => some (other.merge og)) acc = some b →
        geo.overlaps b = true := by
    intro l
    induction l with
    | nil =>
      intro acc h1 h2 b hf
      exact h2 b hf
    | cons r rs ih =>
      intro acc h1 h2 b hf
      simp only [List.foldl_cons] at hf
      refine ih _ (fun x hx => h1 x (by simp [hx])) ?_ b hf
      intro a ha
      cases acc with
      | none =>
        simp only at ha
        cases ha
        exact h1 r (by simp)
      | some other =>
        simp only at ha
        cases ha
        exact Rct.overlaps_of_inside geo other (other.merge r)
          (Rct.merge_inside_left other r) (h2 other rfl)
  unfold resizeBBox at h
  refine haux _ none ?_ (fun a ha => by cases ha) bb h
  intro r hr
  obtain ⟨hmem, hov⟩ := List.mem_filter.mp hr
  rw [Rct.overlaps_comm]
  exact hov

/-- C10 amended: the intersection-then-unwrap step cannot panic when the
min/max clamp does not shrink the proposed rectangle — in particular whenever
the window declares no maximum size (and the adjusted size and the minimum
floor are within the i32 range, as they always are for genuine `i32` values):
then clamping only grows the rectangle, growth preserves the overlap with the
bounding box, and the intersection is non-empty.  With a declared maximum
smaller than the proposed size the unwrap can panic (see the
counterexample). -/
theorem C10_intersection_unwrap_amended (s : FLState) (t i : Nat) (e : Elem)
    (dir : RDirection) (edge : REdge) (amt : Int) (bb : Rct)
    (hfi : findIdxA (hasSurf t) s.elements = some i)
    (hge : s.elements.get? i = some e)
    (hmax : e.win.maxSize = none)
    (hbb : resizeBBox s (adjustGeo e.rect dir edge amt) = some bb)
    (hw : (adjustGeo e.rect dir edge amt).size.w ≤ i32Max)
    (hh : (adjustGeo e.rect dir edge amt).size.h ≤ i32Max) :
    ∃ s', resize s (some t) dir edge amt = .ok (true, s') := by
  have hov : (adjustGeo e.rect dir edge amt).overlaps bb = true :=
    resizeBBox_overlaps s _ bb hbb
  have hgw : (adjustGeo e.rect dir edge amt).size.w ≤
      resizeClampAxis (adjustGeo e.rect dir edge amt).size.w
        ((e.win.minSize.map (·.w)).getD 360) ((e.win.maxSize.map (·.w)).getD i32Max) := by
    rw [hmax]
    simp only [Option.map_none', Option.getD_none, resizeClampAxis]
    omega
  have hgh : (adjustGeo e.rect dir edge amt).size.h ≤
      resizeClampAxis (adjustGeo e.rect dir edge amt).size.h
        ((e.win.minSize.map (·.h)).getD 240) ((e.win.maxSize.map (·.h)).getD i32Max) := by
    rw [hmax]
    simp only [Option.map_none', Option.getD_none, resizeClampAxis]
    omega
  have hov2 : (Rct.mk (adjustGeo e.rect dir edge amt).loc
      ⟨resizeClampAxis (adjustGeo e.rect dir edge amt).size.w
         ((e.win.minSize.map (·.w)).getD 360) ((e.win.maxSize.map (·.w)).getD i32Max),
       resizeClampAxis (adjustGeo e.rect dir edge amt).size.h
         ((e.win.minSize.map (·.h)).getD 240)
         ((e.win.maxSize.map (·.h)).getD i32Max)⟩).overlaps bb = true :=
    Rct.overlaps_of_grow (adjustGeo e.rect dir edge amt) _ bb rfl hgw hgh hov
  obtain ⟨r, hr⟩ := Rct.intersection_isSome _ bb hov2
  refine ⟨⟨s.outputs,
      updAt (resizeApply edge e.rect ⟨e.win.activeX11Loc.getD ⟨0, 0⟩, r.size⟩)
        s.elements i⟩, ?_⟩
  simp only [resize, hfi, hge, hbb, hr]

/-- C10 amended witness: an in-bounds window with no declared max resizes
without panicking. -/
theorem C10_intersection_unwrap_witness :
    ∃ s', resize plainS1 (some 1) RDirection.Outwards ⟨false, true, false, false⟩ 10
      = .ok (true, s') :=
  C10_intersection_unwrap_amended plainS1 1 0 ⟨mkWin 1 1 ⟨400, 300⟩, ⟨100, 50⟩⟩
    RDirection.Outwards ⟨false, true, false, false⟩ 10 outStd.spaceGeo
    rfl rfl rfl (by decide) (by decide) (by decide)

/-! ## C8: refresh coverage -/

/-- A single 100×100 output whose recorded space geometry sits at x = 10000,
away from its zone-local coordinate origin. -/
def farOut : SpaceOutput :=
  ⟨0, ⟨10000, 0⟩, ⟨⟨0, 0⟩, ⟨100, 100⟩⟩, ⟨⟨10000, 0⟩, ⟨100, 100⟩⟩⟩

/-- A window overlapping no output, on the far output. -/
def orphanS8 : FLState := ⟨[farOut], [⟨mkWin 1 1 ⟨50, 50⟩, ⟨20000, 0⟩⟩]⟩

/-- C8 counterexample: with one registered output whose space geometry is far
from the zone-local origin, `refresh` re-places the orphan at zone-centred
coordinates (25, 25), which still overlap no output: after the call the
window overlaps zero outputs although an output is registered. -/
theorem C8_refresh_coverage_counterexample :
    (refresh orphanS8).map
        (fun s' => s'.elements.map (fun e => ((elemOutputs s' e).isEmpty, e.loc)))
      = .ok [(true, ⟨25, 25⟩)] ∧
    orphanS8.outputs.length = 1 := by
  exact ⟨rfl, rfl⟩

/-- A window handle with no declared constraints, no content offset and a
positive size. -/
def plainWin (x : Elem) : Prop :=
  x.win.geoLoc = ⟨0, 0⟩ ∧ 0 < x.win.geoSize.w ∧ 0 < x.win.geoSize.h ∧
  x.win.minSize = none ∧ x.win.maxSize = none

/-- An output mapped into the space at the origin of its own zone-local
coordinates, with a zone of extent at least 3 contained in it. -/
def originOutput (o : SpaceOutput) : Prop :=
  o.spaceGeo.loc = ⟨0, 0⟩ ∧ 0 ≤ o.zone.loc.x ∧ 0 ≤ o.zone.loc.y ∧
  3 ≤ o.zone.size.w ∧ 3 ≤ o.zone.size.h ∧
  o.zone.loc.x + o.zone.size.w ≤ o.spaceGeo.size.w ∧
  o.zone.loc.y + o.zone.size.h ≤ o.spaceGeo.size.h

instance (x : Elem) : Decidable (plainWin x) := by
  unfold plainWin
  infer_instance

instance (o : SpaceOutput) : Decidable (originOutput o) := by
  unfold originOutput
  infer_instance

/-- For an unconstrained window the placement axis clamp keeps the size
positive and within the zone. -/
theorem placementAxis_pos_le (c z : Int) (hc : 0 < c) (hz : 3 ≤ z) :
    0 < placementAxis c z 0 0 ∧ placementAxis c z 0 0 ≤ z := by
  have ht : z.tdiv 3 = z / 3 := Int.tdiv_eq_ediv (by omega) (by norm_num)
  simp only [placementAxis, ht]
  split_ifs <;> simp_all <;> omega

/-- A positively sized rectangle placed at the zone-centred position overlaps
the output's space geometry, when the output is origin-mapped and the size
fits the zone. -/
theorem centered_overlaps (o : SpaceOutput) (ho : originOutput o) (sz : Siz)
    (hw : 0 < sz.w) (hh : 0 < sz.h) (hwle : sz.w ≤ o.zone.size.w)
    (hhle : sz.h ≤ o.zone.size.h) :
    (Rct.mk (zoneCentered o sz ⟨0, 0⟩) sz).overlaps o.spaceGeo = true := by
  obtain ⟨hl, hzx, hzy, hzw, hzh, hfw, hfh⟩ := ho
  rw [Rct.overlaps_iff]
  have h1 : o.zone.size.w.tdiv 2 = o.zone.size.w / 2 :=
    Int.tdiv_eq_ediv (by omega) (by norm_num)
  have h2 : o.zone.size.h.tdiv 2 = o.zone.size.h / 2 :=
    Int.tdiv_eq_ediv (by omega) (by norm_num)
  have h3 : sz.w.tdiv 2 = sz.w / 2 := Int.tdiv_eq_ediv (by omega) (by norm_num)
  have h4 : sz.h.tdiv 2 = sz.h / 2 := Int.tdiv_eq_ediv (by omega) (by norm_num)
  simp only [zoneCentered, hl, h1, h2, h3, h4]
  omega

/-- Shape of the element list after `map_internal`: the re-mapped element is
appended on top with the recomputed window fields and the position fallback
chain. -/
theorem mapInternal_elements (s : FLState) (e : Elem) (o : SpaceOutput)
    (pos : Option Pnt) :
    ∃ e', (mapInternal s e o pos).elements
        = s.elements.filter (fun x => x.win.wid ≠ e.win.wid) ++ [e'] ∧
      e'.win.wid = e.win.wid ∧
      e'.win.geoLoc = e.win.geoLoc ∧
      e'.win.minSize = e.win.minSize ∧ e'.win.maxSize = e.win.maxSize ∧
      e'.win.lastGeometry = e.win.lastGeometry ∧
      e'.win.geoSize = placementSize ((e.win.lastGeometry.map (·.size)).getD e.win.geoSize)
        o.zone (e.win.minSize.getD ⟨0, 0⟩) (e.win.maxSize.getD ⟨0, 0⟩) ∧
      e'.loc = (pos <|> e.win.lastGeometry.map (·.loc)).getD
        (zoneCentered o e'.win.geoSize e.win.geoLoc) := by
  exact ⟨_, rfl, rfl, rfl, rfl, rfl, rfl, rfl, rfl⟩

theorem findA_mem (p : Elem → Bool) (l : List Elem) (e : Elem)
    (h : findA p l = some e) : e ∈ l ∧ p e = true := by
  induction l with
  | nil => cases h
  | cons x xs ih =>
    simp only [findA] at h
    by_cases hx : p x
    · rw [if_pos hx] at h
      cases h
      exact ⟨by simp, hx⟩
    · rw [if_neg hx] at h
      obtain ⟨h1, h2⟩ := ih h
      exact ⟨by simp [h1], h2⟩

/-- Invariant maintained across the repair loop of `refresh`: the outputs are
unchanged, window-handle identities stay distinct, every element is an
unconstrained origin-offset window, every element either overlaps some output
or is still in the worklist `ws`, and every already-processed orphan has a
cleared restore slot and sits at the zone-centred position. -/
def C8Inv (outs : List SpaceOutput) (o : SpaceOutput) (allOrph ws : List Nat)
    (st : FLState) : Prop :=
  st.outputs = outs ∧
  (st.elements.map (fun x => x.win.wid)).Nodup ∧
  ∀ x ∈ st.elements, plainWin x ∧
    ((∃ u ∈ outs, x.rect.overlaps u.spaceGeo = true) ∨ x.win.wid ∈ ws) ∧
    (x.win.wid ∈ allOrph → x.win.wid ∉ ws →
      x.win.lastGeometry = none ∧ x.loc = zoneCentered o x.win.geoSize ⟨0, 0⟩)

theorem C8Inv_step (outs : List SpaceOutput) (o : SpaceOutput)
    (allOrph ws : List Nat) (st : FLState) (w : Nat)
    (ho : originOutput o) (homem : o ∈ outs)
    (hinv : C8Inv outs o allOrph (w :: ws) st) :
    C8Inv outs o allOrph ws (refreshStep o st w) := by
  obtain ⟨houts, hnd, hall⟩ := hinv
  unfold refreshStep
  split
  case h_1 hfa =>
    refine ⟨houts, hnd, fun x hx => ?_⟩
    obtain ⟨hp, hdisj, htrack⟩ := hall x hx
    have hne : x.win.wid ≠ w := by
      have := findA_of_all_neg _ _ hfa x hx
      simpa using this
    refine ⟨hp, ?_, ?_⟩
    · rcases hdisj with h | h
      · exact Or.inl h
      · rcases List.mem_cons.mp h with h1 | h1
        · exact absurd h1 hne
        · exact Or.inr h1
    · intro ha hw2
      exact htrack ha (fun hc => (List.mem_cons.mp hc).elim hne hw2)
  case h_2 e hfa =>
    obtain ⟨hee, hpw⟩ := findA_mem _ _ _ hfa
    have hwid : e.win.wid = w := by simpa using hpw
    obtain ⟨hpe, hdisje, htracke⟩ := hall e hee
    obtain ⟨hgl0, hszw, hszh, hmin0, hmax0⟩ := hpe
    obtain ⟨e', helems, hwid', hgl, hmin, hmax, hlast', hsz, hloc⟩ :=
      mapInternal_elements st (clearLast e) o none
    have hclw : (clearLast e).win.wid = e.win.wid := rfl
    have hsz2 : e'.win.geoSize =
        placementSize e.win.geoSize o.zone ⟨0, 0⟩ ⟨0, 0⟩ := by
      rw [hsz]
      simp [clearLast, hmin0, hmax0]
    have hszw2 : 0 < e'.win.geoSize.w ∧ e'.win.geoSize.w ≤ o.zone.size.w := by
      rw [hsz2]
      exact placementAxis_pos_le _ _ hszw ho.2.2.2.1
    have hszh2 : 0 < e'.win.geoSize.h ∧ e'.win.geoSize.h ≤ o.zone.size.h := by
      rw [hsz2]
      exact placementAxis_pos_le _ _ hszh ho.2.2.2.2.1
    have hloc2 : e'.loc = zoneCentered o e'.win.geoSize ⟨0, 0⟩ := by
      rw [hloc]
      simp [clearLast, hgl0]
    have hov : e'.rect.overlaps o.spaceGeo = true := by
      have := centered_overlaps o ho e'.win.geoSize hszw2.1 hszh2.1 hszw2.2 hszh2.2
      rw [Elem.rect, hloc2]
      exact this
    refine ⟨houts, ?_, ?_⟩
    · rw [helems, List.map_append]
      rw [List.nodup_append]
      refine ⟨((List.filter_sublist st.elements).map _).nodup hnd, by simp, ?_⟩
      intro a ha hcon
      simp only [List.mem_map] at ha
      obtain ⟨x, hxf, hxa⟩ := ha
      obtain ⟨hxm, hxp⟩ := List.mem_filter.mp hxf
      have hae : a = e'.win.wid := by simpa using hcon
      apply absurd (hxa.trans hae)
      rw [hwid']
      simpa using hxp
    · rw [helems]
      intro x hx
      rcases List.mem_append.mp hx with hx1 | hx1
      · obtain ⟨hxm, hxp⟩ := List.mem_filter.mp hx1
        have hne : x.win.wid ≠ e.win.wid := by simpa using hxp
        obtain ⟨hp, hdisj, htrack⟩ := hall x hxm
        refine ⟨hp, ?_, ?_⟩
        · rcases hdisj with h | h
          · exact Or.inl h
          · rcases List.mem_cons.mp h with h1 | h1
            · exact absurd (h1.trans hwid.symm) hne
            · exact Or.inr h1
        · intro ha hw2
          exact htrack ha (fun hc => (List.mem_cons.mp hc).elim
            (fun hcw => hne (hcw.trans hwid.symm)) hw2)
      · have hx2 : x = e' := by simpa using hx1
        subst hx2
        refine ⟨⟨by rw [hgl]; exact hgl0, hszw2.1, hszh2.1,
            by rw [hmin]; exact hmin0, by rw [hmax]; exact hmax0⟩, ?_, ?_⟩
        · exact Or.inl ⟨o, homem, hov⟩
        · intro ha hw2
          refine ⟨?_, hloc2⟩
          rw [hlast']
          rfl

theorem C8Inv_fold (outs : List SpaceOutput) (o : SpaceOutput)
    (allOrph : List Nat) (ho : originOutput o) (homem : o ∈ outs) :
    ∀ (ws : List Nat) (st : FLState), C8Inv outs o allOrph ws st →
      C8Inv outs o allOrph [] (ws.foldl (refreshStep o) st) := by
  intro ws
  induction ws with
  | nil => intro st h; exact h
  | cons w ws ih =>
    intro st h
    simp only [List.foldl_cons]
    exact ih _ (C8Inv_step outs o allOrph ws st w ho homem h)

theorem elemOutputs_ne_nil (s : FLState) (x : Elem) :
    elemOutputs s x ≠ [] ↔ ∃ u ∈ s.outputs, x.rect.overlaps u.spaceGeo = true := by
  constructor
  · intro h
    rcases hne : elemOutputs s x with _ | ⟨u, us⟩
    · exact absurd hne h
    · have hu : u ∈ elemOutputs s x := by rw [hne]; simp
      obtain ⟨hmem, hov⟩ := List.mem_filter.mp hu
      exact ⟨u, hmem, by simpa using hov⟩
  · rintro ⟨u, hmem, hov⟩ hnil
    have hu : u ∈ elemOutputs s x := List.mem_filter.mpr ⟨hmem, by simpa using hov⟩
    rw [hnil] at hu
    cases hu

/-- C8 amended: with at least one registered output, provided the first
output's recorded space geometry sits at the origin of its zone-local
coordinates (so that zone-centred re-placement lands on it) and all windows
are unconstrained with no content offset and positive sizes, after `refresh`
every registered window overlaps at least one output, and every window that
overlapped zero outputs beforehand has its restore slot cleared and sits at
the zone-centred position computed by `map_internal` with no explicit
position.  Without the origin-mapping proviso the coverage post-condition
fails (see the counterexample). -/
theorem C8_refresh_coverage_amended (s : FLState) (o : SpaceOutput)
    (rest : List SpaceOutput) (houts : s.outputs = o :: rest)
    (ho : originOutput o)
    (hplain : ∀ x ∈ s.elements, plainWin x)
    (hnodup : (s.elements.map (fun x => x.win.wid)).Nodup) :
    ∃ s', refresh s = .ok s' ∧
      (∀ x ∈ s'.elements, elemOutputs s' x ≠ []) ∧
      (∀ x ∈ s'.elements,
        x.win.wid ∈ (s.elements.filter
            (fun e => (elemOutputs s e).isEmpty)).map (fun e => e.win.wid) →
          x.win.lastGeometry = none ∧ x.loc = zoneCentered o x.win.geoSize ⟨0, 0⟩) := by
  by_cases horph : ((s.elements.filter
      (fun e => (elemOutputs s e).isEmpty)).map (fun e => e.win.wid)).isEmpty
  · have hfil : s.elements.filter (fun e => (elemOutputs s e).isEmpty) = [] := by
      rcases h2 : s.elements.filter (fun e => (elemOutputs s e).isEmpty) with _ | ⟨y, ys⟩
      · rfl
      · rw [h2] at horph
        simp at horph
    refine ⟨s, ?_, ?_, ?_⟩
    · simp only [refresh, horph, if_true]
    · intro x hx
      have hne : ¬(elemOutputs s x).isEmpty := by
        intro hemp
        have hmem : x ∈ s.elements.filter (fun e => (elemOutputs s e).isEmpty) :=
          List.mem_filter.mpr ⟨hx, by simpa using hemp⟩
        rw [hfil] at hmem
        cases hmem
      simpa using hne
    · intro x hx hmem
      rw [hfil] at hmem
      simp at hmem
  · have hhead : s.outputs.head? = some o := by rw [houts]; rfl
    set orph := (s.elements.filter
      (fun e => (elemOutputs s e).isEmpty)).map (fun e => e.win.wid) with horphdef
    have hinit : C8Inv s.outputs o orph orph s := by
      refine ⟨rfl, hnodup, fun x hx => ?_⟩
      refine ⟨hplain x hx, ?_, ?_⟩
      · by_cases hemp : (elemOutputs s x).isEmpty
        · right
          rw [horphdef]
          exact List.mem_map.mpr ⟨x, List.mem_filter.mpr ⟨hx, by simpa using hemp⟩, rfl⟩
        · left
          rw [← elemOutputs_ne_nil]
          simpa using hemp
      · intro ha hw2
        exact absurd ha hw2
    have hfold := C8Inv_fold s.outputs o orph ho (by rw [houts]; simp) orph s hinit
    obtain ⟨houts', hnd', hall'⟩ := hfold
    refine ⟨orph.foldl (refreshStep o) s, ?_, ?_, ?_⟩
    · simp only [refresh]
      rw [if_neg horph, hhead]
    · intro x hx
      obtain ⟨hp, hdisj, htrack⟩ := hall' x hx
      rcases hdisj with h | h
      · obtain ⟨u, hu, hov⟩ := h
        rw [elemOutputs_ne_nil]
        refine ⟨u, ?_, hov⟩
        rw [houts']
        exact hu
      · cases h
    · intro x hx hmem
      obtain ⟨hp, hdisj, htrack⟩ := hall' x hx
      exact htrack hmem (by simp)

/-- An orphan window far right of the standard (origin-mapped) output. -/
def orphanFixS8 : FLState := ⟨[outStd], [⟨mkWin 1 1 ⟨50, 50⟩, ⟨30000, 0⟩⟩]⟩

/-- C8 amended witness: the orphan on the origin-mapped output is repaired. -/
theorem C8_refresh_coverage_witness :
    ∃ s', refresh orphanFixS8 = .ok s' ∧
      (∀ x ∈ s'.elements, elemOutputs s' x ≠ []) ∧
      (∀ x ∈ s'.elements,
        x.win.wid ∈ (orphanFixS8.elements.filter
            (fun e => (elemOutputs orphanFixS8 e).isEmpty)).map (fun e => e.win.wid) →
          x.win.lastGeometry = none ∧ x.loc = zoneCentered outStd x.win.geoSize ⟨0, 0⟩) :=
  C8_refresh_coverage_amended orphanFixS8 outStd [] rfl (by decide) (by decide)
    (by decide)

end Floating
